import Mathlib

/-!
Verification of the oxyjs AST node model (src/parser/ast.rs) and the
program driver (src/bin.rs) against the repository specification.

The AST node family, its construction-time assertions, the category
predicates and the tree rendering are embedded from src/parser/ast.rs.
The token layer (tokenizer.rs / ast_builder.rs) is not part of the
sources in scope; the token kind enumeration, the FullToken record and
its write_token operation are modelled from the spec, as marked on each
such definition.  Rust assertions (`assert!`) abort the process, so a
fallible constructor is embedded as an Option-returning function where
`none` stands for the assertion failure; `fmt::Write` writers are
modelled by a test writer that can be told to fail on chosen writes,
returning the mutated writer together with the Ok/Err flag of the write.
-/

/-- Modelled from the spec: the token kind enumeration of the absent
tokenizer module (`parser::tokenizer::Token`): identifier, the
punctuator/operator kinds including the assignment-operator family
(plain `=` and compound forms), keywords and end-of-input. -/
inductive Token where
  | identifier
  | assign
  | plusAssign
  | minusAssign
  | plus
  | minus
  | question
  | colon
  | comma
  | semicolon
  | openParen
  | closeParen
  | openBrace
  | closeBrace
  | varKeyword
  | ifKeyword
  | endOfInput
deriving DecidableEq, Repr

/-- Modelled from the spec: the derived predicate "is this an identifier"
on a token kind. -/
def Token.is_identifier : Token → Bool
  | .identifier => true
  | _ => false

/-- Modelled from the spec: the derived predicate "is this an assignment
operator" on a token kind, true exactly for the assignment-operator
family (plain `=` and the compound forms). -/
def Token.is_assignment_op : Token → Bool
  | .assign => true
  | .plusAssign => true
  | .minusAssign => true
  | _ => false

/-- Modelled from the spec: `parser::ast_builder::FullToken`, an immutable
classified lexical unit carrying its kind, source span and raw text. -/
structure FullToken where
  kind : Token
  start_offset : Nat
  end_offset : Nat
  text : String
deriving DecidableEq, Repr

/-- A model of a `fmt::Write` writer for the rendering layer: it
accumulates output, counts write calls, and fails exactly on the write
calls whose index is listed in `failSet` (a failing write appends
nothing).  `write_str` returns the mutated writer together with the
Ok/Err flag, mirroring a Rust `&mut` writer whose `write_str` returns
`Result<(), fmt::Error>`. -/
structure TestWriter where
  out : String
  failSet : List Nat
  count : Nat
deriving DecidableEq, Repr

def TestWriter.write_str (w : TestWriter) (s : String) : TestWriter × Bool :=
  if w.count ∈ w.failSet then
    ({ w with count := w.count + 1 }, false)
  else
    ({ out := w.out ++ s, failSet := w.failSet, count := w.count + 1 }, true)

/-- Modelled from the spec: `FullToken::write_token` (defined in the
absent ast_builder module) writes the token's raw source text to the
writer, returning the write's result. -/
def FullToken.write_token (t : FullToken) (w : TestWriter) : TestWriter × Bool :=
  w.write_str t.text

/-- The `AstKind` enumeration of src/parser/ast.rs. -/
inductive AstKind where
  | Program
  | BlockStmt
  | VarStmt
  | EmptyStmt
  | IfStmt
  | ExprStmt
  | BinaryOpExpr
  | CondExpr
  | AssignExpr
  | CommaExpr
  | NameExpr
deriving DecidableEq, Repr

/-- `AstKind::to_string`, which formats the variant with its Debug name. -/
def AstKind.to_string : AstKind → String
  | .Program => "Program"
  | .BlockStmt => "BlockStmt"
  | .VarStmt => "VarStmt"
  | .EmptyStmt => "EmptyStmt"
  | .IfStmt => "IfStmt"
  | .ExprStmt => "ExprStmt"
  | .BinaryOpExpr => "BinaryOpExpr"
  | .CondExpr => "CondExpr"
  | .AssignExpr => "AssignExpr"
  | .CommaExpr => "CommaExpr"
  | .NameExpr => "NameExpr"

mutual
/-- The closed family of AST node variants of src/parser/ast.rs: the
dynamic-dispatch `AstNode` trait objects embedded as one inductive, each
constructor carrying exactly the fields of its Rust struct
(`Vec<Box<AstNode>>` becomes `NodeList`, `Vec<Box<FullToken>>` becomes
`List FullToken`). -/
inductive Node where
  | program (source_elements : NodeList)
  | blockStmt
  | varStmt (vars : List FullToken)
  | emptyStmt
  | ifStmt (cond_expr : Node) (if_true_stmt : Node)
  | exprStmt (expr : Node)
  | binaryOpExpr (binary_op : FullToken) (left_expr : Node) (right_expr : Node)
  | condExpr (cond_expr : Node) (if_expr : Node) (else_expr : Node)
  | assignExpr (assign_op : FullToken) (left_expr : Node) (right_expr : Node)
  | commaExpr (left_expr : Node) (right_expr : Node)
  | nameExpr (name : FullToken)

/-- The list of child nodes owned by a ProgramNode. -/
inductive NodeList where
  | nil
  | cons (hd : Node) (tl : NodeList)
end

/-- `AstNode::kind` of each variant. -/
def Node.kind : Node → AstKind
  | .program _ => .Program
  | .blockStmt => .BlockStmt
  | .varStmt _ => .VarStmt
  | .emptyStmt => .EmptyStmt
  | .ifStmt _ _ => .IfStmt
  | .exprStmt _ => .ExprStmt
  | .binaryOpExpr _ _ _ => .BinaryOpExpr
  | .condExpr _ _ _ => .CondExpr
  | .assignExpr _ _ _ => .AssignExpr
  | .commaExpr _ _ => .CommaExpr
  | .nameExpr _ => .NameExpr

/-- `AstNode::is_statement` of each variant. -/
def Node.is_statement : Node → Bool
  | .program _ => false
  | .blockStmt => true
  | .varStmt _ => true
  | .emptyStmt => true
  | .ifStmt _ _ => true
  | .exprStmt _ => true
  | .binaryOpExpr _ _ _ => false
  | .condExpr _ _ _ => false
  | .assignExpr _ _ _ => false
  | .commaExpr _ _ => false
  | .nameExpr _ => false

/-- `AstNode::is_expression` of each variant. -/
def Node.is_expression : Node → Bool
  | .program _ => false
  | .blockStmt => false
  | .varStmt _ => false
  | .emptyStmt => false
  | .ifStmt _ _ => false
  | .exprStmt _ => false
  | .binaryOpExpr _ _ _ => true
  | .condExpr _ _ _ => true
  | .assignExpr _ _ _ => true
  | .commaExpr _ _ => true
  | .nameExpr _ => true

/-- Rust's `?` on a `(writer, result)` pair: continue on Ok, return the
Err together with the writer state reached so far. -/
def andThen (p : TestWriter × Bool) (f : TestWriter → TestWriter × Bool) :
    TestWriter × Bool :=
  match p with
  | (w, true) => f w
  | (w, false) => (w, false)

/-- The `for variable in &self.variables` loop of `VarStmtNode::write_tree`:
before every element but the first, the separator is written; each
element is written with `write_token` and `?`. -/
def write_vars : Bool → List FullToken → TestWriter → TestWriter × Bool
  | _, [], w => (w, true)
  | first, v :: rest, w =>
    andThen (if first then (w, true) else w.write_str ", ") (fun w1 =>
    andThen (v.write_token w1) (fun w2 =>
    write_vars false rest w2))

mutual
/-- `AstNode::write_tree` of each variant, embedded from ast.rs: each
write is sequenced with `?` — except the `write_token` call inside
`NameExprNode::write_tree`, whose Result the Rust source discards
(line 486: `self.name.write_token(w);`), mirrored here by dropping the
flag but keeping the mutated writer. -/
def write_tree : Node → TestWriter → TestWriter × Bool
  | .program es, w =>
    andThen (w.write_str "ProgramNode\x7b") (fun w1 =>
    andThen (write_source_elements true es w1) (fun w2 =>
    w2.write_str "\x7d"))
  | .blockStmt, w => w.write_str "Block\x7b\x7d"
  | .varStmt vs, w =>
    andThen (w.write_str "Var\x7b") (fun w1 =>
    andThen (write_vars true vs w1) (fun w2 =>
    w2.write_str "\x7d"))
  | .emptyStmt, w => w.write_str "Empty\x7b\x7d"
  | .ifStmt c b, w =>
    andThen (w.write_str "If(") (fun w1 =>
    andThen (write_tree c w1) (fun w2 =>
    andThen (w2.write_str ")\x7b") (fun w3 =>
    andThen (write_tree b w3) (fun w4 =>
    w4.write_str "\x7d"))))
  | .exprStmt e, w =>
    andThen (w.write_str "ExprStmt\x7b") (fun w1 =>
    andThen (write_tree e w1) (fun w2 =>
    w2.write_str "\x7d"))
  | .binaryOpExpr t l r, w =>
    andThen (w.write_str "BinaryOpExpr(") (fun w1 =>
    andThen (t.write_token w1) (fun w2 =>
    andThen (w2.write_str ")\x7b") (fun w3 =>
    andThen (write_tree l w3) (fun w4 =>
    andThen (w4.write_str ", ") (fun w5 =>
    andThen (write_tree r w5) (fun w6 =>
    w6.write_str "\x7d"))))))
  | .condExpr c a b, w =>
    andThen (w.write_str "CondExpr\x7b") (fun w1 =>
    andThen (write_tree c w1) (fun w2 =>
    andThen (w2.write_str ", ") (fun w3 =>
    andThen (write_tree a w3) (fun w4 =>
    andThen (w4.write_str ", ") (fun w5 =>
    andThen (write_tree b w5) (fun w6 =>
    w6.write_str "\x7d"))))))
  | .assignExpr t l r, w =>
    andThen (w.write_str "AssignExpr(") (fun w1 =>
    andThen (t.write_token w1) (fun w2 =>
    andThen (w2.write_str ")\x7b") (fun w3 =>
    andThen (write_tree l w3) (fun w4 =>
    andThen (w4.write_str ", ") (fun w5 =>
    andThen (write_tree r w5) (fun w6 =>
    w6.write_str "\x7d"))))))
  | .commaExpr l r, w =>
    andThen (w.write_str "CommaExpr\x7b") (fun w1 =>
    andThen (write_tree l w1) (fun w2 =>
    andThen (w2.write_str ", ") (fun w3 =>
    andThen (write_tree r w3) (fun w4 =>
    w4.write_str "\x7d"))))
  | .nameExpr t, w =>
    andThen (w.write_str "NameExpr\x7b") (fun w1 =>
    match t.write_token w1 with
    | (w2, _) => w2.write_str "\x7d")

/-- The `for source_element in &self.source_elements` loop of
`ProgramNode::write_tree`. -/
def write_source_elements : Bool → NodeList → TestWriter → TestWriter × Bool
  | _, .nil, w => (w, true)
  | first, .cons e rest, w =>
    andThen (if first then (w, true) else w.write_str ", ") (fun w1 =>
    andThen (write_tree e w1) (fun w2 =>
    write_source_elements false rest w2))
end

/-- `AstNode::tree_string`: render into a fresh, never-failing string
writer and unwrap the result; the unwrap panic is modelled as `none`. -/
def tree_string (n : Node) : Option String :=
  match write_tree n { out := "", failSet := [], count := 0 } with
  | (w, true) => some w.out
  | (_, false) => none

/-- `ProgramNode::new`: a program with no source elements yet. -/
def ProgramNode.new : Node := Node.program .nil

/-- `BlockStmtNode::new`. -/
def BlockStmtNode.new : Node := Node.blockStmt

/-- `VarStmtNode::new`: a var statement with no variables yet. -/
def VarStmtNode.new : Node := Node.varStmt []

/-- `EmptyStmtNode::new`. -/
def EmptyStmtNode.new : Node := Node.emptyStmt

/-- `IfStmtNode::new_if`: embedded exactly as written in ast.rs lines
192-197 — it contains no assertion on either child, so it always
returns a node. -/
def IfStmtNode.new_if (cond_expr : Node) (if_true_stmt : Node) : Node :=
  Node.ifStmt cond_expr if_true_stmt

/-- `ExprStmtNode::new` with its `assert!(expr.is_expression())`;
`none` models the assertion abort. -/
def ExprStmtNode.new (expr : Node) : Option Node :=
  if expr.is_expression then some (Node.exprStmt expr) else none

/-- `BinaryOpExprNode::new` with its two child assertions (the operator
token's kind is not checked in the source). -/
def BinaryOpExprNode.new (binary_op : FullToken) (left_expr right_expr : Node) :
    Option Node :=
  if left_expr.is_expression then
    if right_expr.is_expression then
      some (Node.binaryOpExpr binary_op left_expr right_expr)
    else none
  else none

/-- `CondExprNode::new` with its three child assertions. -/
def CondExprNode.new (cond_expr if_expr else_expr : Node) : Option Node :=
  if cond_expr.is_expression then
    if if_expr.is_expression then
      if else_expr.is_expression then
        some (Node.condExpr cond_expr if_expr else_expr)
      else none
    else none
  else none

/-- `AssignExprNode::new` with its three assertions in source order:
left child, right child, operator kind.  The FIXME in the source notes
that no lvalue restriction is applied to the left child. -/
def AssignExprNode.new (assign_op : FullToken) (left_expr right_expr : Node) :
    Option Node :=
  if left_expr.is_expression then
    if right_expr.is_expression then
      if assign_op.kind.is_assignment_op then
        some (Node.assignExpr assign_op left_expr right_expr)
      else none
    else none
  else none

/-- `CommaExprNode::new` with its two child assertions. -/
def CommaExprNode.new (left_expr right_expr : Node) : Option Node :=
  if left_expr.is_expression then
    if right_expr.is_expression then
      some (Node.commaExpr left_expr right_expr)
    else none
  else none

/-- `NameExprNode::new` with its `assert!(name.kind().is_identifier())`. -/
def NameExprNode.new (name : FullToken) : Option Node :=
  if name.kind.is_identifier then some (Node.nameExpr name) else none

/-- Joins rendered children with the separator `", "`, placing no
separator after the last child. -/
def comma_separated : List String → String
  | [] => ""
  | [s] => s
  | s :: rest => s ++ ", " ++ comma_separated rest

mutual
/-- The canonical rendered string of a node, as one pure function: the
characterization proved below of what `write_tree` appends on a
never-failing writer. -/
def render : Node → String
  | .program es =>
      "ProgramNode\x7b" ++ comma_separated (render_list es) ++ "\x7d"
  | .blockStmt => "Block\x7b\x7d"
  | .varStmt vs =>
      "Var\x7b" ++ comma_separated (vs.map (fun v => v.text)) ++ "\x7d"
  | .emptyStmt => "Empty\x7b\x7d"
  | .ifStmt c b => "If(" ++ render c ++ ")\x7b" ++ render b ++ "\x7d"
  | .exprStmt e => "ExprStmt\x7b" ++ render e ++ "\x7d"
  | .binaryOpExpr t l r =>
      "BinaryOpExpr(" ++ t.text ++ ")\x7b" ++ render l ++ ", " ++ render r ++ "\x7d"
  | .condExpr c a b =>
      "CondExpr\x7b" ++ render c ++ ", " ++ render a ++ ", " ++ render b ++ "\x7d"
  | .assignExpr t l r =>
      "AssignExpr(" ++ t.text ++ ")\x7b" ++ render l ++ ", " ++ render r ++ "\x7d"
  | .commaExpr l r =>
      "CommaExpr\x7b" ++ render l ++ ", " ++ render r ++ "\x7d"
  | .nameExpr t => "NameExpr\x7b" ++ t.text ++ "\x7d"

/-- The rendered strings of a program's source elements, in order. -/
def render_list : NodeList → List String
  | .nil => []
  | .cons e rest => render e :: render_list rest
end

/-- The suffix written by the source-element loop after the first
element: the separator `", "` precedes every element. -/
def comma_tail : List String → String
  | [] => ""
  | s :: rest => ", " ++ s ++ comma_tail rest

theorem comma_separated_cons (x : String) (l : List String) :
    comma_separated (x :: l) = x ++ comma_tail l := by
  induction l generalizing x with
  | nil => simp [comma_separated, comma_tail]
  | cons y t ih =>
      show x ++ ", " ++ comma_separated (y :: t) = x ++ comma_tail (y :: t)
      rw [comma_tail, ih y, String.append_assoc, String.append_assoc]

theorem andThen_ok (w : TestWriter) (f : TestWriter → TestWriter × Bool) :
    andThen (w, true) f = f w := rfl

theorem write_str_eq (o : String) (c : Nat) (s : String) :
    TestWriter.write_str ⟨o, [], c⟩ s = (⟨o ++ s, [], c + 1⟩, true) := by
  simp [TestWriter.write_str]

/-- What the source-element loop of `ProgramNode::write_tree` appends:
a separator before every element except, when `first` starts true, the
first one. -/
def sep_out : Bool → NodeList → String
  | _, .nil => ""
  | first, .cons e rest => (if first then "" else ", ") ++ render e ++ sep_out false rest

theorem sep_out_false_eq : (es : NodeList) → sep_out false es = comma_tail (render_list es)
  | .nil => rfl
  | .cons e rest => by
      show ", " ++ render e ++ sep_out false rest = _
      rw [render_list, comma_tail, sep_out_false_eq rest]

theorem sep_out_true_eq (es : NodeList) : sep_out true es = comma_separated (render_list es) := by
  cases es with
  | nil => rfl
  | cons e rest =>
      show "" ++ render e ++ sep_out false rest = _
      rw [render_list, comma_separated_cons, sep_out_false_eq rest, String.empty_append]

/-- What the variable loop of `VarStmtNode::write_tree` appends. -/
def var_sep_out : Bool → List FullToken → String
  | _, [] => ""
  | first, v :: rest => (if first then "" else ", ") ++ v.text ++ var_sep_out false rest

theorem var_sep_out_false_eq : (vs : List FullToken) →
    var_sep_out false vs = comma_tail (vs.map (fun v => v.text))
  | [] => rfl
  | v :: rest => by
      show ", " ++ v.text ++ var_sep_out false rest = _
      rw [List.map_cons, comma_tail, var_sep_out_false_eq rest]

theorem var_sep_out_true_eq (vs : List FullToken) :
    var_sep_out true vs = comma_separated (vs.map (fun v => v.text)) := by
  cases vs with
  | nil => rfl
  | cons v rest =>
      show "" ++ v.text ++ var_sep_out false rest = _
      rw [List.map_cons, comma_separated_cons, var_sep_out_false_eq rest, String.empty_append]

theorem write_vars_ok : (first : Bool) → (vs : List FullToken) → (o : String) → (c : Nat) →
    ∃ k, write_vars first vs ⟨o, [], c⟩ = (⟨o ++ var_sep_out first vs, [], k⟩, true)
  | first, [], o, c => by
      refine ⟨c, ?_⟩
      show (({ out := o, failSet := [], count := c } : TestWriter), true) = _
      rw [var_sep_out, String.append_empty]
  | true, v :: rest, o, c => by
      obtain ⟨k1, h1⟩ := write_vars_ok false rest (o ++ v.text) (c + 1)
      refine ⟨k1, ?_⟩
      show andThen (FullToken.write_token v ⟨o, [], c⟩)
        (fun w2 => write_vars false rest w2) = _
      rw [FullToken.write_token, write_str_eq, andThen_ok, h1]
      simp [var_sep_out, String.append_assoc]
  | false, v :: rest, o, c => by
      obtain ⟨k1, h1⟩ := write_vars_ok false rest ((o ++ ", ") ++ v.text) (c + 2)
      refine ⟨k1, ?_⟩
      show andThen (TestWriter.write_str ⟨o, [], c⟩ ", ")
        (fun w1 => andThen (FullToken.write_token v w1)
          (fun w2 => write_vars false rest w2)) = _
      rw [write_str_eq, andThen_ok, FullToken.write_token, write_str_eq, andThen_ok, h1]
      simp [var_sep_out, String.append_assoc]

mutual
theorem write_tree_ok : (n : Node) → (o : String) → (c : Nat) →
    ∃ k, write_tree n ⟨o, [], c⟩ = (⟨o ++ render n, [], k⟩, true)
  | .program es, o, c => by
      obtain ⟨k1, h1⟩ := write_source_elements_ok true es (o ++ "ProgramNode\x7b") (c + 1)
      refine ⟨k1 + 1, ?_⟩
      simp only [write_tree, write_str_eq, andThen_ok]
      rw [h1]
      simp only [andThen_ok, write_str_eq, render, sep_out_true_eq, String.append_assoc]
  | .blockStmt, o, c => ⟨c + 1, rfl⟩
  | .varStmt vs, o, c => by
      obtain ⟨k1, h1⟩ := write_vars_ok true vs (o ++ "Var\x7b") (c + 1)
      refine ⟨k1 + 1, ?_⟩
      simp only [write_tree, write_str_eq, andThen_ok]
      rw [h1]
      simp only [andThen_ok, write_str_eq, render, var_sep_out_true_eq, String.append_assoc]
  | .emptyStmt, o, c => ⟨c + 1, rfl⟩
  | .ifStmt a b, o, c => by
      obtain ⟨k1, h1⟩ := write_tree_ok a (o ++ "If(") (c + 1)
      obtain ⟨k2, h2⟩ := write_tree_ok b (o ++ "If(" ++ render a ++ ")\x7b") (k1 + 1)
      refine ⟨k2 + 1, ?_⟩
      simp only [write_tree, write_str_eq, andThen_ok]
      rw [h1]
      simp only [andThen_ok, write_str_eq]
      rw [h2]
      simp only [andThen_ok, write_str_eq, render, String.append_assoc]
  | .exprStmt e, o, c => by
      obtain ⟨k1, h1⟩ := write_tree_ok e (o ++ "ExprStmt\x7b") (c + 1)
      refine ⟨k1 + 1, ?_⟩
      simp only [write_tree, write_str_eq, andThen_ok]
      rw [h1]
      simp only [andThen_ok, write_str_eq, render, String.append_assoc]
  | .binaryOpExpr t l r, o, c => by
      obtain ⟨k1, h1⟩ := write_tree_ok l (o ++ "BinaryOpExpr(" ++ t.text ++ ")\x7b") (c + 3)
      obtain ⟨k2, h2⟩ :=
        write_tree_ok r (o ++ "BinaryOpExpr(" ++ t.text ++ ")\x7b" ++ render l ++ ", ") (k1 + 1)
      refine ⟨k2 + 1, ?_⟩
      simp only [write_tree, write_str_eq, andThen_ok, FullToken.write_token]
      rw [h1]
      simp only [andThen_ok, write_str_eq]
      rw [h2]
      simp only [andThen_ok, write_str_eq, render, String.append_assoc]
  | .condExpr x y z, o, c => by
      obtain ⟨k1, h1⟩ := write_tree_ok x (o ++ "CondExpr\x7b") (c + 1)
      obtain ⟨k2, h2⟩ := write_tree_ok y (o ++ "CondExpr\x7b" ++ render x ++ ", ") (k1 + 1)
      obtain ⟨k3, h3⟩ :=
        write_tree_ok z (o ++ "CondExpr\x7b" ++ render x ++ ", " ++ render y ++ ", ") (k2 + 1)
      refine ⟨k3 + 1, ?_⟩
      simp only [write_tree, write_str_eq, andThen_ok]
      rw [h1]
      simp only [andThen_ok, write_str_eq]
      rw [h2]
      simp only [andThen_ok, write_str_eq]
      rw [h3]
      simp only [andThen_ok, write_str_eq, render, String.append_assoc]
  | .assignExpr t l r, o, c => by
      obtain ⟨k1, h1⟩ := write_tree_ok l (o ++ "AssignExpr(" ++ t.text ++ ")\x7b") (c + 3)
      obtain ⟨k2, h2⟩ :=
        write_tree_ok r (o ++ "AssignExpr(" ++ t.text ++ ")\x7b" ++ render l ++ ", ") (k1 + 1)
      refine ⟨k2 + 1, ?_⟩
      simp only [write_tree, write_str_eq, andThen_ok, FullToken.write_token]
      rw [h1]
      simp only [andThen_ok, write_str_eq]
      rw [h2]
      simp only [andThen_ok, write_str_eq, render, String.append_assoc]
  | .commaExpr l r, o, c => by
      obtain ⟨k1, h1⟩ := write_tree_ok l (o ++ "CommaExpr\x7b") (c + 1)
      obtain ⟨k2, h2⟩ := write_tree_ok r (o ++ "CommaExpr\x7b" ++ render l ++ ", ") (k1 + 1)
      refine ⟨k2 + 1, ?_⟩
      simp only [write_tree, write_str_eq, andThen_ok]
      rw [h1]
      simp only [andThen_ok, write_str_eq]
      rw [h2]
      simp only [andThen_ok, write_str_eq, render, String.append_assoc]
  | .nameExpr t, o, c => by
      refine ⟨c + 3, ?_⟩
      simp only [write_tree, write_str_eq, andThen_ok, FullToken.write_token]
      simp only [render, String.append_assoc]

theorem write_source_elements_ok : (first : Bool) → (es : NodeList) → (o : String) → (c : Nat) →
    ∃ k, write_source_elements first es ⟨o, [], c⟩ = (⟨o ++ sep_out first es, [], k⟩, true)
  | first, .nil, o, c => ⟨c, by simp [write_source_elements, sep_out]⟩
  | true, .cons e rest, o, c => by
      obtain ⟨k1, h1⟩ := write_tree_ok e o c
      obtain ⟨k2, h2⟩ := write_source_elements_ok false rest (o ++ render e) k1
      refine ⟨k2, ?_⟩
      show andThen (write_tree e ⟨o, [], c⟩)
        (fun w2 => write_source_elements false rest w2) = _
      rw [h1]
      simp only [andThen_ok]
      rw [h2]
      simp [sep_out, String.append_assoc]
  | false, .cons e rest, o, c => by
      obtain ⟨k1, h1⟩ := write_tree_ok e (o ++ ", ") (c + 1)
      obtain ⟨k2, h2⟩ := write_source_elements_ok false rest ((o ++ ", ") ++ render e) k1
      refine ⟨k2, ?_⟩
      show andThen (TestWriter.write_str ⟨o, [], c⟩ ", ")
        (fun w1 => andThen (write_tree e w1)
          (fun w2 => write_source_elements false rest w2)) = _
      rw [write_str_eq, andThen_ok, h1]
      simp only [andThen_ok]
      rw [h2]
      simp [sep_out, String.append_assoc]
end

/-- The characterization of `tree_string`: on every node the internal
unwrap never fires and the rendered string is `render`. -/
theorem tree_string_eq (n : Node) : tree_string n = some (render n) := by
  obtain ⟨k, h⟩ := write_tree_ok n "" 0
  simp [tree_string, h]

/-- Modelled from the spec: the parse error produced by
`AstBuilder::parse_program` (ast_builder.rs is absent from the sources
in scope), carrying the unexpected token and a diagnostic message. -/
structure ParseError where
  offending : FullToken
  message : String
deriving Repr

/-- An observable outcome of running the program entry point: either a
printed line, or a process abort (panic). -/
inductive DriverOutcome where
  | printed (line : String)
  | panicked
deriving DecidableEq, Repr

/-- The `main` of src/bin.rs as a function of the parse result it
obtains: it calls `.unwrap()` on the result of `parse_program`, so an
Err aborts with a panic; on Ok it prints the tree string (whose inner
unwrap is the inner match). -/
def main_on_parse_result (r : Except ParseError Node) : DriverOutcome :=
  match r with
  | .ok program =>
      match tree_string program with
      | some s => .printed ("Parsed program: " ++ s)
      | none => .panicked
  | .error _ => .panicked

/-- The fixed leading label each kind prints in `write_tree`. -/
def kind_label : AstKind → String
  | .Program => "ProgramNode"
  | .BlockStmt => "Block"
  | .VarStmt => "Var"
  | .EmptyStmt => "Empty"
  | .IfStmt => "If"
  | .ExprStmt => "ExprStmt"
  | .BinaryOpExpr => "BinaryOpExpr"
  | .CondExpr => "CondExpr"
  | .AssignExpr => "AssignExpr"
  | .CommaExpr => "CommaExpr"
  | .NameExpr => "NameExpr"

/-- A sample identifier token used in concrete counterexamples. -/
def sample_name_token : FullToken := ⟨Token.identifier, 0, 1, "x"⟩

/-- Claim C1: constructing a NameExpr node from a token succeeds exactly
when the token's kind is an identifier, and constructing an AssignExpr
node succeeds only if its operator token's kind is an assignment
operator; otherwise the constructor's assertion aborts (modelled by
`none`). -/
theorem c1_token_to_node_validity :
    (∀ t : FullToken, (NameExprNode.new t).isSome = true ↔ t.kind.is_identifier = true)
    ∧ (∀ (t : FullToken) (l r : Node),
        (AssignExprNode.new t l r).isSome = true → t.kind.is_assignment_op = true) := by
  constructor
  · intro t
    by_cases h : t.kind.is_identifier <;> simp [NameExprNode.new, h]
  · intro t l r h
    by_cases h1 : l.is_expression <;> by_cases h2 : r.is_expression <;>
      by_cases h3 : t.kind.is_assignment_op <;>
      simp [AssignExprNode.new, h1, h2, h3] at h ⊢

/-- Witness for C1: the assignment-operator branch applied at a concrete
`=` token and two concrete name-expression children. -/
theorem c1_token_to_node_validity_witness :
    Token.is_assignment_op Token.assign = true :=
  c1_token_to_node_validity.2 ⟨Token.assign, 2, 3, "="⟩
    (Node.nameExpr ⟨Token.identifier, 0, 1, "a"⟩)
    (Node.nameExpr ⟨Token.identifier, 4, 5, "b"⟩) (by decide)

/-- Claim C2: ExprStmt construction succeeds exactly when its child is an
expression, and BinaryOpExpr, CondExpr and CommaExpr construction
succeeds exactly when every operand child is an expression; under these
preconditions the abort branch is unreachable, and any violation aborts
(`none`). -/
theorem c2_expression_child_invariants :
    (∀ e : Node, (ExprStmtNode.new e).isSome = true ↔ e.is_expression = true)
    ∧ (∀ (t : FullToken) (l r : Node),
        (BinaryOpExprNode.new t l r).isSome = true ↔
          (l.is_expression = true ∧ r.is_expression = true))
    ∧ (∀ x y z : Node,
        (CondExprNode.new x y z).isSome = true ↔
          (x.is_expression = true ∧ y.is_expression = true ∧ z.is_expression = true))
    ∧ (∀ l r : Node,
        (CommaExprNode.new l r).isSome = true ↔
          (l.is_expression = true ∧ r.is_expression = true)) := by
  refine ⟨fun e => ?_, fun t l r => ?_, fun x y z => ?_, fun l r => ?_⟩
  · by_cases h : e.is_expression <;> simp [ExprStmtNode.new, h]
  · by_cases h1 : l.is_expression <;> by_cases h2 : r.is_expression <;>
      simp [BinaryOpExprNode.new, h1, h2]
  · by_cases h1 : x.is_expression <;> by_cases h2 : y.is_expression <;>
      by_cases h3 : z.is_expression <;> simp [CondExprNode.new, h1, h2, h3]
  · by_cases h1 : l.is_expression <;> by_cases h2 : r.is_expression <;>
      simp [CommaExprNode.new, h1, h2]

/-- Witness for C2: construction succeeds at concrete expression
children, by the forward use of the equivalences. -/
theorem c2_expression_child_invariants_witness :
    (ExprStmtNode.new (Node.nameExpr sample_name_token)).isSome = true ∧
      (CommaExprNode.new (Node.nameExpr sample_name_token)
        (Node.nameExpr sample_name_token)).isSome = true :=
  ⟨(c2_expression_child_invariants.1 (Node.nameExpr sample_name_token)).mpr (by decide),
   (c2_expression_child_invariants.2.2.2 (Node.nameExpr sample_name_token)
      (Node.nameExpr sample_name_token)).mpr (by decide)⟩

/-- Claim C3 (code bug in new_if): `IfStmtNode::new_if` contains no
assertion at all, so at the concrete failing input — a condition that is
not an expression and a true-branch that is not a statement — it still
returns a node normally instead of aborting. -/
theorem c3_new_if_does_not_abort :
    IfStmtNode.new_if Node.emptyStmt (Node.nameExpr sample_name_token)
        = Node.ifStmt Node.emptyStmt (Node.nameExpr sample_name_token)
      ∧ Node.is_expression Node.emptyStmt = false
      ∧ Node.is_statement (Node.nameExpr sample_name_token) = false :=
  ⟨rfl, rfl, rfl⟩

/-- Claim C4: on every node, is_statement and is_expression are never
both true; for the Program kind both are false, and for every other
kind exactly one of them is true. -/
theorem c4_statement_expression_exclusivity :
    ∀ n : Node,
      ((n.is_statement && n.is_expression) = false)
      ∧ (n.kind = AstKind.Program → n.is_statement = false ∧ n.is_expression = false)
      ∧ (n.kind ≠ AstKind.Program → (n.is_statement || n.is_expression) = true) := by
  intro n
  cases n <;> simp [Node.kind, Node.is_statement, Node.is_expression]

/-- Witness for C4: the Program root has both predicates false, and a
non-Program node has exactly one true. -/
theorem c4_statement_expression_exclusivity_witness :
    ((Node.program NodeList.nil).is_statement = false
      ∧ (Node.program NodeList.nil).is_expression = false)
    ∧ (Node.blockStmt.is_statement || Node.blockStmt.is_expression) = true :=
  ⟨(c4_statement_expression_exclusivity (Node.program NodeList.nil)).2.1 rfl,
   (c4_statement_expression_exclusivity Node.blockStmt).2.2 (by decide)⟩

/-- Claim C5 counterexample: the claim says every rendering begins with
the node's kind tag name; but a BlockStmt renders as "Block{...}", which
does not begin with its kind tag's name "BlockStmt". -/
theorem c5_counterexample :
    tree_string Node.blockStmt = some "Block\x7b\x7d"
    ∧ (AstKind.to_string (Node.kind Node.blockStmt)).data.isPrefixOf
        ("Block\x7b\x7d").data = false :=
  ⟨rfl, by decide⟩

/-- Claim C5 (amended): every node's rendering begins with a fixed
per-kind label — equal to the kind tag's name for ExprStmt and the five
expression kinds, but "ProgramNode" for Program, "Block" for BlockStmt,
"Var" for VarStmt, "Empty" for EmptyStmt and "If" for IfStmt — followed
by a braced child list, opened either directly by a brace or by a
parenthesized auxiliary part. -/
theorem c5_kind_label_amended :
    ∀ n : Node, ∃ rest : String,
      tree_string n = some (kind_label n.kind ++ rest)
      ∧ ((∃ q, rest = "\x7b" ++ q) ∨ (∃ q, rest = "(" ++ q)) := by
  intro n
  rw [tree_string_eq]
  cases n with
  | program es =>
      refine ⟨"\x7b" ++ (comma_separated (render_list es) ++ "\x7d"),
        ?_, Or.inl ⟨_, rfl⟩⟩
      show some (("ProgramNode\x7b" ++ comma_separated (render_list es)) ++ "\x7d") = _
      rw [show ("ProgramNode\x7b" : String) = "ProgramNode" ++ "\x7b" from rfl]
      simp only [Node.kind, kind_label, String.append_assoc]
  | blockStmt => exact ⟨"\x7b" ++ "\x7d", rfl, Or.inl ⟨_, rfl⟩⟩
  | varStmt vs =>
      refine ⟨"\x7b" ++ (comma_separated (vs.map (fun v => v.text)) ++ "\x7d"),
        ?_, Or.inl ⟨_, rfl⟩⟩
      show some (("Var\x7b" ++ comma_separated (vs.map (fun v => v.text))) ++ "\x7d") = _
      rw [show ("Var\x7b" : String) = "Var" ++ "\x7b" from rfl]
      simp only [Node.kind, kind_label, String.append_assoc]
  | emptyStmt => exact ⟨"\x7b" ++ "\x7d", rfl, Or.inl ⟨_, rfl⟩⟩
  | ifStmt a b =>
      refine ⟨"(" ++ (render a ++ (")\x7b" ++ (render b ++ "\x7d"))),
        ?_, Or.inr ⟨_, rfl⟩⟩
      show some (((("If(" ++ render a) ++ ")\x7b") ++ render b) ++ "\x7d") = _
      rw [show ("If(" : String) = "If" ++ "(" from rfl]
      simp only [Node.kind, kind_label, String.append_assoc]
  | exprStmt e =>
      refine ⟨"\x7b" ++ (render e ++ "\x7d"), ?_, Or.inl ⟨_, rfl⟩⟩
      show some (("ExprStmt\x7b" ++ render e) ++ "\x7d") = _
      rw [show ("ExprStmt\x7b" : String) = "ExprStmt" ++ "\x7b" from rfl]
      simp only [Node.kind, kind_label, String.append_assoc]
  | binaryOpExpr t l r =>
      refine ⟨"(" ++ (t.text ++ (")\x7b" ++ (render l ++ (", " ++ (render r ++ "\x7d"))))),
        ?_, Or.inr ⟨_, rfl⟩⟩
      show some ((((((("BinaryOpExpr(" ++ t.text) ++ ")\x7b") ++ render l) ++ ", ")
        ++ render r) ++ "\x7d")) = _
      rw [show ("BinaryOpExpr(" : String) = "BinaryOpExpr" ++ "(" from rfl]
      simp only [Node.kind, kind_label, String.append_assoc]
  | condExpr x y z =>
      refine ⟨"\x7b" ++ (render x ++ (", " ++ (render y ++ (", " ++ (render z ++ "\x7d"))))),
        ?_, Or.inl ⟨_, rfl⟩⟩
      show some (((((("CondExpr\x7b" ++ render x) ++ ", ") ++ render y) ++ ", ")
        ++ render z) ++ "\x7d") = _
      rw [show ("CondExpr\x7b" : String) = "CondExpr" ++ "\x7b" from rfl]
      simp only [Node.kind, kind_label, String.append_assoc]
  | assignExpr t l r =>
      refine ⟨"(" ++ (t.text ++ (")\x7b" ++ (render l ++ (", " ++ (render r ++ "\x7d"))))),
        ?_, Or.inr ⟨_, rfl⟩⟩
      show some ((((((("AssignExpr(" ++ t.text) ++ ")\x7b") ++ render l) ++ ", ")
        ++ render r) ++ "\x7d")) = _
      rw [show ("AssignExpr(" : String) = "AssignExpr" ++ "(" from rfl]
      simp only [Node.kind, kind_label, String.append_assoc]
  | commaExpr l r =>
      refine ⟨"\x7b" ++ (render l ++ (", " ++ (render r ++ "\x7d"))),
        ?_, Or.inl ⟨_, rfl⟩⟩
      show some (((("CommaExpr\x7b" ++ render l) ++ ", ") ++ render r) ++ "\x7d") = _
      rw [show ("CommaExpr\x7b" : String) = "CommaExpr" ++ "\x7b" from rfl]
      simp only [Node.kind, kind_label, String.append_assoc]
  | nameExpr t =>
      refine ⟨"\x7b" ++ (t.text ++ "\x7d"), ?_, Or.inl ⟨_, rfl⟩⟩
      show some (("NameExpr\x7b" ++ t.text) ++ "\x7d") = _
      rw [show ("NameExpr\x7b" : String) = "NameExpr" ++ "\x7b" from rfl]
      simp only [Node.kind, kind_label, String.append_assoc]

/-- Claim C6: each node kind renders exactly in the section-6 shapes:
Program as ProgramNode-braces, VarStmt as Var-braces over its tokens,
IfStmt as If(cond)-braces-body, EmptyStmt as Empty-braces, BinaryOpExpr
and AssignExpr with their operator token parenthesized, CondExpr and
CommaExpr as plain braced lists, NameExpr as NameExpr-braces over its
name — children in left-to-right parse order, joined by the separator
", " with none after the last child (comma_separated). -/
theorem c6_exact_tree_formats :
    (∀ es, tree_string (Node.program es)
        = some ("ProgramNode\x7b" ++ comma_separated (render_list es) ++ "\x7d"))
    ∧ (∀ vs, tree_string (Node.varStmt vs)
        = some ("Var\x7b" ++ comma_separated (vs.map (fun v => v.text)) ++ "\x7d"))
    ∧ (∀ a b, tree_string (Node.ifStmt a b)
        = some ("If(" ++ render a ++ ")\x7b" ++ render b ++ "\x7d"))
    ∧ tree_string Node.emptyStmt = some "Empty\x7b\x7d"
    ∧ (∀ t l r, tree_string (Node.binaryOpExpr t l r)
        = some ("BinaryOpExpr(" ++ t.text ++ ")\x7b" ++ render l ++ ", " ++ render r ++ "\x7d"))
    ∧ (∀ t l r, tree_string (Node.assignExpr t l r)
        = some ("AssignExpr(" ++ t.text ++ ")\x7b" ++ render l ++ ", " ++ render r ++ "\x7d"))
    ∧ (∀ x y z, tree_string (Node.condExpr x y z)
        = some ("CondExpr\x7b" ++ render x ++ ", " ++ render y ++ ", " ++ render z ++ "\x7d"))
    ∧ (∀ l r, tree_string (Node.commaExpr l r)
        = some ("CommaExpr\x7b" ++ render l ++ ", " ++ render r ++ "\x7d"))
    ∧ (∀ t, tree_string (Node.nameExpr t) = some ("NameExpr\x7b" ++ t.text ++ "\x7d")) :=
  ⟨fun es => tree_string_eq (Node.program es),
   fun vs => tree_string_eq (Node.varStmt vs),
   fun a b => tree_string_eq (Node.ifStmt a b),
   tree_string_eq Node.emptyStmt,
   fun t l r => tree_string_eq (Node.binaryOpExpr t l r),
   fun t l r => tree_string_eq (Node.assignExpr t l r),
   fun x y z => tree_string_eq (Node.condExpr x y z),
   fun l r => tree_string_eq (Node.commaExpr l r),
   fun t => tree_string_eq (Node.nameExpr t)⟩

/-- Claim C7: AssignExprNode construction applies no lvalue restriction:
for every operator token whose kind is an assignment operator and every
pair of children satisfying is_expression — the left child in no way
restricted to valid assignment targets — construction succeeds and
returns the node. -/
theorem c7_assignment_target_unvalidated :
    ∀ (op : FullToken) (l r : Node),
      op.kind.is_assignment_op = true →
      l.is_expression = true →
      r.is_expression = true →
      AssignExprNode.new op l r = some (Node.assignExpr op l r) := by
  intro op l r h1 h2 h3
  simp [AssignExprNode.new, h1, h2, h3]

/-- Witness for C7: a concrete instance whose left child is a CommaExpr,
an expression but not a valid assignment target. -/
theorem c7_assignment_target_unvalidated_witness :
    AssignExprNode.new ⟨Token.assign, 2, 3, "="⟩
        (Node.commaExpr (Node.nameExpr ⟨Token.identifier, 0, 1, "a"⟩)
          (Node.nameExpr ⟨Token.identifier, 1, 2, "b"⟩))
        (Node.nameExpr ⟨Token.identifier, 4, 5, "c"⟩)
      = some (Node.assignExpr ⟨Token.assign, 2, 3, "="⟩
          (Node.commaExpr (Node.nameExpr ⟨Token.identifier, 0, 1, "a"⟩)
            (Node.nameExpr ⟨Token.identifier, 1, 2, "b"⟩))
          (Node.nameExpr ⟨Token.identifier, 4, 5, "c"⟩)) :=
  c7_assignment_target_unvalidated _ _ _ rfl rfl rfl

/-- Claim C8: rendering is total and deterministic: write_tree into a
fresh never-failing string writer always returns Ok — so the internal
unwrap in tree_string never fires — and every tree renders to its one
canonical string, so repeated renderings agree. -/
theorem c8_rendering_total_deterministic :
    ∀ n : Node,
      (write_tree n ⟨"", [], 0⟩).2 = true ∧ tree_string n = some (render n) := by
  intro n
  obtain ⟨k, h⟩ := write_tree_ok n "" 0
  exact ⟨by rw [h], tree_string_eq n⟩

/-- Claim C9 (code bug in main): for every failed parse the bin.rs driver
reaches `.unwrap()` on the Err and panics, never producing a printed
line; the claim that the entry point propagates the error as a
human-readable message is violated. -/
theorem c9_driver_unwraps_parse_errors :
    ∀ e : ParseError,
      main_on_parse_result (Except.error e) = DriverOutcome.panicked
      ∧ ∀ msg : String, main_on_parse_result (Except.error e) ≠ DriverOutcome.printed msg :=
  fun _ => ⟨rfl, fun _ h => DriverOutcome.noConfusion h⟩

/-- Claim C10: NameExprNode::write_tree discards the Result of writing
its name token: with a writer that fails exactly on that write (index 1)
it still returns Ok — silently rendering "NameExpr\x7b\x7d" — while the
variants whose token writes use the try operator (VarStmt, BinaryOpExpr,
AssignExpr) propagate the same failure as Err, as do all the plain
label writes of the remaining variants (index 0). -/
theorem c10_nameexpr_swallows_writer_error :
    ∀ t : FullToken,
      (write_tree (Node.nameExpr t) ⟨"", [1], 0⟩ = (⟨"NameExpr\x7b\x7d", [1], 3⟩, true))
      ∧ ((write_tree (Node.varStmt [t]) ⟨"", [1], 0⟩).2 = false)
      ∧ ((write_tree (Node.binaryOpExpr t (Node.nameExpr t) (Node.nameExpr t))
            ⟨"", [1], 0⟩).2 = false)
      ∧ ((write_tree (Node.assignExpr t (Node.nameExpr t) (Node.nameExpr t))
            ⟨"", [1], 0⟩).2 = false)
      ∧ ((write_tree (Node.program NodeList.nil) ⟨"", [0], 0⟩).2 = false)
      ∧ ((write_tree Node.blockStmt ⟨"", [0], 0⟩).2 = false)
      ∧ ((write_tree Node.emptyStmt ⟨"", [0], 0⟩).2 = false)
      ∧ ((write_tree (Node.ifStmt (Node.nameExpr t) Node.emptyStmt) ⟨"", [0], 0⟩).2 = false)
      ∧ ((write_tree (Node.exprStmt (Node.nameExpr t)) ⟨"", [0], 0⟩).2 = false)
      ∧ ((write_tree (Node.condExpr (Node.nameExpr t) (Node.nameExpr t) (Node.nameExpr t))
            ⟨"", [0], 0⟩).2 = false)
      ∧ ((write_tree (Node.commaExpr (Node.nameExpr t) (Node.nameExpr t))
            ⟨"", [0], 0⟩).2 = false) :=
  fun _ => ⟨rfl, rfl, rfl, rfl, rfl, rfl, rfl, rfl, rfl, rfl, rfl⟩
